import Mathlib

/-!
Shallow embedding of the gatekeeper offline-sync core.

The definitions below are translated from the source:
- `src/src/components/Search.tsx` (the `Main` component: `handleSync`,
  `pendingEntries`, the merge loop, the guard conditions);
- `src/src/lib/db.ts` (`saveEntries`, `setAppState`: IndexedDB keyed by
  `record_id`, so a bulk save is a sequence of per-key upserts);
- `src/src/api/client.ts` (`SyncPushResponse`, `SyncPullResponse`; a
  non-ok HTTP status or a network error surfaces as a thrown exception).

Machine-level details that are environmental (the wall clock, the gateway's
responses, whether an IndexedDB transaction commits) are supplied as
explicit inputs in `SyncEnv`; the run itself is the pure function
`handleSync : SyncState → SyncEnv → SyncState × RunLog`.
-/

namespace Gatekeeper

/-- `EntryType` from `src/src/types` (part of db.ts bundle). -/
inductive EntryType
  | PERSONNEL
  | TRUCK
  | CAR
  | OTHER
  deriving DecidableEq, Repr

/-- `EntryStatus` from the types module: soft-delete marker. -/
inductive EntryStatus
  | ACTIVE
  | DELETED
  deriving DecidableEq, Repr

/-- The tagged payload union (`PersonnelPayload | TruckPayload | CarPayload | OtherPayload`). -/
inductive Payload
  | personnel (personnel_name id_number purpose notes : String)
  | truck (plate_number company cargo_type notes : String)
  | car (plate_number driver_name notes : String)
  | other (description asset_tag notes : String)
  deriving DecidableEq, Repr

/-- The `Entry` interface from the types module. `isPending?: boolean` is an
optional field, hence `Option Bool`; JS truthiness of the flag is
`isPending == some true`. -/
structure Entry where
  record_id : String
  checkpoint_id : String
  entry_type : EntryType
  logging_user_id : String
  client_ts : String
  updated_at : String
  created_at : String
  status : EntryStatus
  isPending : Option Bool
  payload : Payload
  deriving DecidableEq, Repr

/-- `pendingEntries = entries.filter(e => e.isPending)` (Search.tsx line 138);
`e.isPending` is truthy exactly when the optional flag is `true`. -/
def pendingEntries (entries : List Entry) : List Entry :=
  entries.filter (fun e => e.isPending == some true)

/-- JS truthiness of the `token : string | null` value used in the guard
`if (!isOnline || isSyncing || !token) return;`: `null` and `""` are falsy. -/
def tokenTruthy : Option String → Bool
  | none => false
  | some t => !(t == "")

/-- `{ ...serverEntry, isPending: false }` (Search.tsx lines 211 and 214):
the pulled version wins wholesale, with the pending flag cleared. -/
def serverWins (r : Entry) : Entry := { r with isPending := some false }

/-- `l.findIndex(e => e.record_id === i) >= 0`, as a Bool. -/
def hasId (l : List Entry) (i : String) : Bool :=
  l.any (fun e => e.record_id == i)

/-- Replace the first element whose `record_id` equals `i` by `v`
(`mergedEntries[existingIndex] = v` at the index found by `findIndex`). -/
def setFirst (v : Entry) (i : String) : List Entry → List Entry
  | [] => []
  | e :: es => if e.record_id == i then v :: es else e :: setFirst v i es

/-- One iteration of the `pulledEntries.forEach` merge loop
(Search.tsx lines 204-216): overwrite the existing entry with the server
version, or `unshift` a brand-new one. -/
def mergeOne (l : List Entry) (r : Entry) : List Entry :=
  if hasId l r.record_id then setFirst (serverWins r) r.record_id l
  else serverWins r :: l

/-- The whole merge loop: fold the pulled entries, in order, into the local list. -/
def mergeEntries (l : List Entry) (rs : List Entry) : List Entry :=
  rs.foldl mergeOne l

/-- One `tx.store.put(entry)` on the IndexedDB `entries` store (db.ts line 76):
the store is keyed by `record_id`, so a put upserts by key. -/
def dbPut (l : List Entry) (e : Entry) : List Entry :=
  if hasId l e.record_id then setFirst e e.record_id l else l ++ [e]

/-- `db.saveEntries(entries)` (db.ts lines 74-77): every entry is put into the
keyed store inside one transaction. -/
def saveEntries (l : List Entry) (es : List Entry) : List Entry :=
  es.foldl dbPut l

/-- The body of the `entries.map(...)` pass applying the push outcome
(Search.tsx lines 178-194): a record listed in `rejected_ids` is kept as is;
otherwise a record that was in the sync batch is flipped to not-pending;
all other records are returned unchanged. -/
def markPushedFun (entriesToSync : List Entry) (rejectedIds : List String)
    (entry : Entry) : Entry :=
  if rejectedIds.contains entry.record_id then entry
  else if entriesToSync.any (fun e => e.record_id == entry.record_id) then
    { entry with isPending := some false }
  else entry

/-- The whole `entries.map(...)` pass (Search.tsx lines 178-194). -/
def markPushed (entries entriesToSync : List Entry) (rejectedIds : List String) :
    List Entry :=
  entries.map (markPushedFun entriesToSync rejectedIds)

/-- `SyncPushResponse` from `src/src/api/client.ts` (the fields `success` and
`message` are never read by `handleSync` and are omitted). -/
structure SyncPushResponse where
  accepted : Nat
  rejected : Nat
  rejected_ids : Option (List String)
  deriving DecidableEq, Repr

/-- `SyncPullResponse` from the API client. `handleSync` defends against a
missing `entries` field with `pullResponse.entries || []`, hence `Option`. -/
structure SyncPullResponse where
  entries : Option (List Entry)
  count : Nat
  deriving DecidableEq, Repr

/-- `pullResponse.entries || []` (Search.tsx line 201). -/
def pulledOf (resp : SyncPullResponse) : List Entry := resp.entries.getD []

/-- The values stored into `syncError`: a caught exception message
(transport / persistence failure) or the end-of-run rejection warning
whose text carries `rejected_ids.length`. -/
inductive SyncNote
  | apiError (msg : String)
  | rejectedConflicts (n : Nat)
  deriving DecidableEq, Repr

/-- The environmental inputs of one run: the optional single-record filter,
the gateway's two responses (`Except.error` = the call threw / got no ok
response), whether the IndexedDB commit and the watermark `setAppState`
succeed, and the wall clock observed by `new Date()` at commit time. -/
structure SyncEnv where
  recordIdToSync : Option String
  pushResult : Except String SyncPushResponse
  pullResult : Except String SyncPullResponse
  commitResult : Except String Unit
  appStateResult : Except String Unit
  now : Nat

/-- The mutable state `handleSync` reads and writes: the in-memory entry list,
the connectivity / in-flight / auth guards, the last surfaced outcome, the
in-memory watermark, and the IndexedDB side (entry store and persisted
watermark). -/
structure SyncState where
  entries : List Entry
  isOnline : Bool
  isSyncing : Bool
  token : Option String
  syncError : Option SyncNote
  lastSyncTime : Option Nat
  dbEntries : List Entry
  dbLastSyncTime : Option Nat
  deriving DecidableEq, Repr

/-- Which gateway calls a run actually performed. -/
structure RunLog where
  pushCalled : Bool
  pullCalled : Bool
  deriving DecidableEq, Repr

/-- `entriesToSync` (Search.tsx lines 160-162): the pending set, optionally
narrowed to one record id for a single-record retry. -/
def entriesToSyncOf (s : SyncState) (env : SyncEnv) : List Entry :=
  match env.recordIdToSync with
  | some rid => (pendingEntries s.entries).filter (fun e => e.record_id == rid)
  | none => pendingEntries s.entries

/-- `handleSync` (Search.tsx lines 153-238), phase by phase:
guard; empty-batch short circuit; push (a throw aborts the run); apply the
push outcome in memory; pull (a throw aborts); merge; `db.saveEntries`
commit (a throw aborts); publish the merged list and advance the in-memory
watermark to `new Date()`; persist the watermark; surface the rejection
warning if `rejected_ids` is non-empty. Every abort lands in the `catch`
which stores the error message, and the `finally` clears `isSyncing`. -/
def handleSync (s : SyncState) (env : SyncEnv) : SyncState × RunLog :=
  if !s.isOnline || s.isSyncing || !(tokenTruthy s.token) then
    (s, ⟨false, false⟩)
  else
    let s1 := { s with isSyncing := true, syncError := none }
    let toSync := entriesToSyncOf s env
    if toSync.isEmpty then
      ({ s1 with isSyncing := false }, ⟨false, false⟩)
    else
      match env.pushResult with
      | Except.error msg =>
          ({ s1 with syncError := some (SyncNote.apiError msg), isSyncing := false },
           ⟨true, false⟩)
      | Except.ok pushResponse =>
        let rejectedIds := pushResponse.rejected_ids.getD []
        let updatedEntries := markPushed s.entries toSync rejectedIds
        match env.pullResult with
        | Except.error msg =>
            ({ s1 with syncError := some (SyncNote.apiError msg), isSyncing := false },
             ⟨true, true⟩)
        | Except.ok pullResponse =>
          let mergedEntries := mergeEntries updatedEntries (pulledOf pullResponse)
          match env.commitResult with
          | Except.error msg =>
              ({ s1 with syncError := some (SyncNote.apiError msg), isSyncing := false },
               ⟨true, true⟩)
          | Except.ok _ =>
            let s2 := { s1 with
              dbEntries := saveEntries s1.dbEntries mergedEntries,
              entries := mergedEntries,
              lastSyncTime := some env.now }
            match env.appStateResult with
            | Except.error msg =>
                ({ s2 with syncError := some (SyncNote.apiError msg), isSyncing := false },
                 ⟨true, true⟩)
            | Except.ok _ =>
              let s3 := { s2 with dbLastSyncTime := some env.now }
              let s4 :=
                if 0 < rejectedIds.length then
                  { s3 with syncError := some (SyncNote.rejectedConflicts rejectedIds.length) }
                else s3
              ({ s4 with isSyncing := false }, ⟨true, true⟩)

/-- The pulled list of a run, `[]` when the pull call failed (the merge is
then never reached). -/
def pulledListOf (env : SyncEnv) : List Entry :=
  match env.pullResult with
  | Except.ok pr => pulledOf pr
  | Except.error _ => []

/-- `l.find(e => e.record_id === i)`: the local record the UI and the merge
loop see for a given id (first occurrence). -/
def localFor (l : List Entry) (i : String) : Option Entry :=
  l.find? (fun e => e.record_id == i)

/-- The `mergedEntries` value a successful run commits: the push outcome
applied to the entries read at run start, then the pulled records merged in. -/
def mergedOf (s : SyncState) (env : SyncEnv) (pr : SyncPushResponse)
    (plr : SyncPullResponse) : List Entry :=
  mergeEntries (markPushed s.entries (entriesToSyncOf s env) (pr.rejected_ids.getD []))
    (pulledOf plr)

/-! Concrete fixtures used to instantiate the theorems below. -/

/-- A locally created, still-pending record `r1`. -/
def sampleEntry : Entry :=
  ⟨"r1", "cp1", EntryType.PERSONNEL, "u1", "t1", "t1", "t1", EntryStatus.ACTIVE,
    some true, Payload.personnel "alice" "id1" "visit" "n"⟩

/-- An already-synced local record `r0` (not pending). -/
def settledEntry : Entry :=
  ⟨"r0", "cp1", EntryType.CAR, "u1", "t0", "t0", "t0", EntryStatus.ACTIVE,
    some false, Payload.car "KAA1" "carol" "n0"⟩

/-- A server copy of `r1` with different field values, as a pull would return it. -/
def pulledR1 : Entry :=
  ⟨"r1", "cp1", EntryType.PERSONNEL, "u9", "t9", "t9", "t9", EntryStatus.ACTIVE,
    none, Payload.personnel "bob" "id2" "audit" "m"⟩

/-- A brand-new server record `r2` with no local counterpart. -/
def pulledR2 : Entry :=
  ⟨"r2", "cp2", EntryType.TRUCK, "u9", "t8", "t8", "t8", EntryStatus.ACTIVE,
    none, Payload.truck "KBB2" "acme" "sand" "m2"⟩

/-- Online, authenticated, idle state holding the single pending record `r1`. -/
def baseState : SyncState :=
  { entries := [sampleEntry], isOnline := true, isSyncing := false,
    token := some "tok", syncError := none, lastSyncTime := none,
    dbEntries := [sampleEntry], dbLastSyncTime := none }

/-- `baseState` with its watermark already at instant 10 (both in memory and persisted). -/
def stampedState : SyncState :=
  { baseState with lastSyncTime := some 10, dbLastSyncTime := some 10 }

/-- State with nothing pending at all. -/
def emptyState : SyncState :=
  { baseState with entries := [], dbEntries := [] }

/-- State with the pending `r1` plus the already-synced `r0`. -/
def twoEntryState : SyncState :=
  { baseState with
    entries := [sampleEntry, settledEntry],
    dbEntries := [sampleEntry, settledEntry] }

/-- A fully successful run environment: push accepts everything, pull is empty,
both store writes succeed, clock reads 5. -/
def envAllOk : SyncEnv :=
  ⟨none, Except.ok ⟨1, 0, none⟩, Except.ok ⟨some [], 0⟩, Except.ok (), Except.ok (), 5⟩

/-- The push call throws (transport failure). -/
def envPushFail : SyncEnv :=
  ⟨none, Except.error "boom", Except.ok ⟨some [], 0⟩, Except.ok (), Except.ok (), 5⟩

/-- Push succeeds, then the pull call throws. -/
def envPullFail : SyncEnv :=
  ⟨none, Except.ok ⟨1, 0, none⟩, Except.error "pull down", Except.ok (), Except.ok (), 5⟩

/-- Push response reports `rejected = 1` but omits `rejected_ids` entirely. -/
def envRejNoIds : SyncEnv :=
  ⟨none, Except.ok ⟨0, 1, none⟩, Except.ok ⟨some [], 0⟩, Except.ok (), Except.ok (), 5⟩

/-- Scenario B environment: push rejects `r1` explicitly, pull is empty, clock reads 7. -/
def envRejIds : SyncEnv :=
  ⟨none, Except.ok ⟨0, 1, some ["r1"]⟩, Except.ok ⟨some [], 0⟩, Except.ok (), Except.ok (), 7⟩

/-- Push accepts, pull returns the fresh server record `r2`, everything commits. -/
def envPullR2 : SyncEnv :=
  ⟨none, Except.ok ⟨1, 0, none⟩, Except.ok ⟨some [pulledR2], 1⟩, Except.ok (), Except.ok (), 5⟩

/-! ### Basic facts about the merge primitives -/

@[simp] theorem serverWins_id (r : Entry) : (serverWins r).record_id = r.record_id := rfl

@[simp] theorem hasId_nil (i : String) : hasId [] i = false := rfl

@[simp] theorem hasId_cons (e : Entry) (l : List Entry) (i : String) :
    hasId (e :: l) i = (e.record_id == i || hasId l i) := by
  simp [hasId]

/-- Replacing an element keeps the multiset of ids, hence `hasId` answers. -/
theorem hasId_setFirst (v : Entry) (i : String) (hv : v.record_id = i)
    (l : List Entry) (j : String) : hasId (setFirst v i l) j = hasId l j := by
  induction l with
  | nil => rfl
  | cons e es ih =>
    by_cases h : e.record_id = i
    · simp [setFirst, h, hv]
    · simp [setFirst, h, ih]

theorem hasId_mergeOne (l : List Entry) (r : Entry) (j : String) :
    hasId (mergeOne l r) j = (r.record_id == j || hasId l j) := by
  unfold mergeOne
  by_cases h : hasId l r.record_id = true
  · rw [if_pos h, hasId_setFirst _ _ (serverWins_id r)]
    by_cases hj : r.record_id = j
    · subst hj
      simp [h]
    · simp [hj]
  · rw [if_neg h, hasId_cons, serverWins_id]

theorem hasId_mergeEntries (rs : List Entry) (l : List Entry) (j : String) :
    hasId (mergeEntries l rs) j = (rs.any (fun r => r.record_id == j) || hasId l j) := by
  induction rs generalizing l with
  | nil => simp [mergeEntries]
  | cons r rs ih =>
    show hasId (mergeEntries (mergeOne l r) rs) j = _
    rw [ih, hasId_mergeOne]
    simp [Bool.or_assoc, Bool.or_comm, Bool.or_left_comm]

theorem setFirst_setFirst_same (v w : Entry) (i : String) (hw : w.record_id = i)
    (l : List Entry) : setFirst v i (setFirst w i l) = setFirst v i l := by
  induction l with
  | nil => rfl
  | cons e es ih =>
    by_cases h : e.record_id = i
    · simp [setFirst, h, hw]
    · simp [setFirst, h, ih]

theorem setFirst_comm (v w : Entry) (i j : String) (hij : i ≠ j)
    (hv : v.record_id = i) (hw : w.record_id = j) (l : List Entry) :
    setFirst v i (setFirst w j l) = setFirst w j (setFirst v i l) := by
  have hji : j ≠ i := Ne.symm hij
  induction l with
  | nil => rfl
  | cons e es ih =>
    by_cases hej : e.record_id = j
    · have hei : ¬ e.record_id = i := by rw [hej]; exact hji
      simp [setFirst, hej, hei, hw, hji]
    · by_cases hei : e.record_id = i
      · simp [setFirst, hej, hei, hv, hij]
      · simp [setFirst, hej, hei, ih]

theorem setFirst_cons_ne (v x : Entry) (i : String) (hx : ¬ x.record_id = i)
    (l : List Entry) : setFirst v i (x :: l) = x :: setFirst v i l := by
  simp [setFirst, hx]

theorem hasId_mergeOne_self (l : List Entry) (r : Entry) :
    hasId (mergeOne l r) r.record_id = true := by
  rw [hasId_mergeOne]
  simp

/-- Re-merging a record whose id will be merged again later in the list makes
no difference: the later occurrence overwrites the slot either way. -/
theorem foldl_mergeOne_absorb (R : List Entry) (r : Entry) :
    ∀ l, hasId l r.record_id = true →
      R.any (fun x => x.record_id == r.record_id) = true →
      List.foldl mergeOne (setFirst (serverWins r) r.record_id l) R =
        List.foldl mergeOne l R := by
  induction R with
  | nil =>
    intro l _ hdup
    simp at hdup
  | cons x R ih =>
    intro l hl hdup
    by_cases hj : hasId l x.record_id = true
    · have hj' : hasId (setFirst (serverWins r) r.record_id l) x.record_id = true := by
        rw [hasId_setFirst _ _ (serverWins_id r)]; exact hj
      by_cases hxi : x.record_id = r.record_id
      · -- x overwrites the very slot r wrote: both sides continue from the same list
        rw [List.foldl_cons, List.foldl_cons]
        show List.foldl mergeOne (mergeOne (setFirst (serverWins r) r.record_id l) x) R =
          List.foldl mergeOne (mergeOne l x) R
        rw [mergeOne, if_pos hj', mergeOne, if_pos hj, hxi,
          setFirst_setFirst_same _ _ _ (serverWins_id r)]
      · -- x touches a different slot: commute and use the duplicate of r in R
        have hdup' : R.any (fun y => y.record_id == r.record_id) = true := by
          rcases List.any_eq_true.mp hdup with ⟨y, hy, hyr⟩
          rcases List.mem_cons.mp hy with hyx | hyR
          · subst hyx
            exact absurd (beq_iff_eq.mp hyr) hxi
          · exact List.any_eq_true.mpr ⟨y, hyR, hyr⟩
        rw [List.foldl_cons, List.foldl_cons]
        show List.foldl mergeOne (mergeOne (setFirst (serverWins r) r.record_id l) x) R =
          List.foldl mergeOne (mergeOne l x) R
        rw [mergeOne, if_pos hj', mergeOne, if_pos hj,
          setFirst_comm (serverWins x) (serverWins r) x.record_id r.record_id hxi
            (serverWins_id x) (serverWins_id r) l]
        exact ih (setFirst (serverWins x) x.record_id l)
          (by rw [hasId_setFirst _ _ (serverWins_id x)]; exact hl) hdup'
    · have hxi : ¬ x.record_id = r.record_id := by
        intro h
        exact hj (by rw [h]; exact hl)
      have hdup' : R.any (fun y => y.record_id == r.record_id) = true := by
        rcases List.any_eq_true.mp hdup with ⟨y, hy, hyr⟩
        rcases List.mem_cons.mp hy with hyx | hyR
        · subst hyx
          exact absurd (beq_iff_eq.mp hyr) hxi
        · exact List.any_eq_true.mpr ⟨y, hyR, hyr⟩
      have hj' : ¬ hasId (setFirst (serverWins r) r.record_id l) x.record_id = true := by
        rw [hasId_setFirst _ _ (serverWins_id r)]; exact hj
      rw [List.foldl_cons, List.foldl_cons]
      show List.foldl mergeOne (mergeOne (setFirst (serverWins r) r.record_id l) x) R =
        List.foldl mergeOne (mergeOne l x) R
      rw [mergeOne, if_neg hj', mergeOne, if_neg hj,
        ← setFirst_cons_ne (serverWins r) (serverWins x) r.record_id (by simpa using hxi) l]
      exact ih (serverWins x :: l)
        (by rw [hasId_cons, hl]; simp) hdup'

/-- If the slot for `r` already holds the server-wins copy of `r` and no later
pulled entry touches that id, the slot still holds that copy after the fold. -/
theorem foldl_mergeOne_stable (R : List Entry) (r : Entry) :
    ∀ l, setFirst (serverWins r) r.record_id l = l →
      R.any (fun x => x.record_id == r.record_id) = false →
      setFirst (serverWins r) r.record_id (List.foldl mergeOne l R) =
        List.foldl mergeOne l R := by
  induction R with
  | nil => intro l hl _; exact hl
  | cons x R ih =>
    intro l hl hdup
    rw [List.any_cons] at hdup
    rcases Bool.or_eq_false_iff.mp hdup with ⟨hx0, hdup'⟩
    have hxi : ¬ x.record_id = r.record_id := by simpa using hx0
    rw [List.foldl_cons]
    apply ih
    · unfold mergeOne
      by_cases hj : hasId l x.record_id = true
      · rw [if_pos hj,
          setFirst_comm _ _ _ _ (fun h => hxi h.symm) (serverWins_id r) (serverWins_id x), hl]
      · rw [if_neg hj, setFirst_cons_ne _ _ _ (by simpa using hxi), hl]
    · exact hdup'

/-- Immediately after merging `r`, its slot holds the server-wins copy of `r`. -/
theorem setFirst_mergeOne_self (l : List Entry) (r : Entry) :
    setFirst (serverWins r) r.record_id (mergeOne l r) = mergeOne l r := by
  unfold mergeOne
  by_cases hj : hasId l r.record_id = true
  · rw [if_pos hj, setFirst_setFirst_same _ _ _ (serverWins_id r)]
  · rw [if_neg hj, setFirst]
    simp

theorem mergeOne_of_hasId (l : List Entry) (r : Entry)
    (h : hasId l r.record_id = true) :
    mergeOne l r = setFirst (serverWins r) r.record_id l := by
  unfold mergeOne
  rw [if_pos h]

theorem mergeOne_of_not_hasId (l : List Entry) (r : Entry)
    (h : hasId l r.record_id = false) :
    mergeOne l r = serverWins r :: l := by
  unfold mergeOne
  rw [if_neg (by rw [h]; exact Bool.false_ne_true)]

/-- The core idempotence fact behind claim C7, stated on the raw folds. -/
theorem foldl_mergeOne_idem (R : List Entry) :
    ∀ S : List Entry,
      List.foldl mergeOne (List.foldl mergeOne S R) R = List.foldl mergeOne S R := by
  induction R with
  | nil => intro S; rfl
  | cons r R ih =>
    intro S
    rw [List.foldl_cons, List.foldl_cons]
    have hstar := ih (mergeOne S r)
    have hT : hasId (List.foldl mergeOne (mergeOne S r) R) r.record_id = true := by
      have hms := hasId_mergeEntries R (mergeOne S r) r.record_id
      rw [show mergeEntries (mergeOne S r) R = List.foldl mergeOne (mergeOne S r) R from rfl]
        at hms
      rw [hms, hasId_mergeOne_self]
      simp
    rw [mergeOne_of_hasId _ _ hT]
    by_cases hdup : R.any (fun x => x.record_id == r.record_id) = true
    · rw [foldl_mergeOne_absorb R r _ hT hdup]
      exact hstar
    · have hdup' : R.any (fun x => x.record_id == r.record_id) = false :=
        Bool.eq_false_iff.mpr hdup
      rw [foldl_mergeOne_stable R r (mergeOne S r) (setFirst_mergeOne_self S r) hdup']
      exact hstar

/-! ### First-occurrence (`find`) facts, for the server-wins claim -/

theorem localFor_setFirst_ne (v : Entry) (i j : String) (hij : ¬ i = j)
    (hv : v.record_id = i) (l : List Entry) :
    localFor (setFirst v i l) j = localFor l j := by
  induction l with
  | nil => rfl
  | cons e es ih =>
    have hcons : setFirst v i (e :: es) =
        if (e.record_id == i) then v :: es else e :: setFirst v i es := rfl
    by_cases hei : e.record_id = i
    · have hb : (e.record_id == i) = true := beq_iff_eq.mpr hei
      have hvj : (v.record_id == j) = false := beq_eq_false_iff_ne.mpr (by rw [hv]; exact hij)
      have hbj : (e.record_id == j) = false :=
        beq_eq_false_iff_ne.mpr (by rw [hei]; exact hij)
      rw [hcons, if_pos hb]
      simp [localFor, List.find?_cons, hvj, hbj]
    · have hb : (e.record_id == i) = false := beq_eq_false_iff_ne.mpr hei
      rw [hcons, if_neg (by rw [hb]; exact Bool.false_ne_true)]
      by_cases hej : e.record_id = j
      · have hbj : (e.record_id == j) = true := beq_iff_eq.mpr hej
        unfold localFor
        rw [List.find?_cons_of_pos _ (by simp [hbj]), List.find?_cons_of_pos _ (by simp [hbj])]
      · have hbj : (e.record_id == j) = false := beq_eq_false_iff_ne.mpr hej
        unfold localFor
        rw [List.find?_cons_of_neg _ (by simp [hbj]), List.find?_cons_of_neg _ (by simp [hbj])]
        exact ih

theorem localFor_mergeOne_ne (l : List Entry) (r : Entry) (j : String)
    (h : ¬ r.record_id = j) :
    localFor (mergeOne l r) j = localFor l j := by
  unfold mergeOne
  by_cases hr : hasId l r.record_id = true
  · rw [if_pos hr, localFor_setFirst_ne _ _ _ h (serverWins_id r)]
  · rw [if_neg hr]
    simp [localFor, List.find?_cons, h]

theorem localFor_mergeEntries_ne (rs : List Entry) (l : List Entry) (j : String)
    (h : rs.any (fun x => x.record_id == j) = false) :
    localFor (mergeEntries l rs) j = localFor l j := by
  induction rs generalizing l with
  | nil => rfl
  | cons r rs ih =>
    rw [List.any_cons] at h
    rcases Bool.or_eq_false_iff.mp h with ⟨h1, h2⟩
    show localFor (mergeEntries (mergeOne l r) rs) j = localFor l j
    rw [ih (mergeOne l r) h2, localFor_mergeOne_ne _ _ _ (by simpa using h1)]

theorem localFor_setFirst_self (v : Entry) (i : String) (hv : v.record_id = i)
    (l : List Entry) (h : hasId l i = true) :
    localFor (setFirst v i l) i = some v := by
  induction l with
  | nil => simp [hasId] at h
  | cons e es ih =>
    by_cases hei : e.record_id = i
    · simp [setFirst, localFor, List.find?_cons, hei, hv]
    · rw [hasId_cons] at h
      rcases Bool.or_eq_true_iff.mp h with h1 | h2
      · exact absurd (beq_iff_eq.mp h1) hei
      · have hb : (e.record_id == i) = false := beq_eq_false_iff_ne.mpr hei
        have hcons : setFirst v i (e :: es) =
            if (e.record_id == i) then v :: es else e :: setFirst v i es := rfl
        rw [hcons, if_neg (by rw [hb]; exact Bool.false_ne_true)]
        unfold localFor
        rw [List.find?_cons_of_neg _ (by simp [hb])]
        exact ih h2

theorem localFor_mergeOne_self (l : List Entry) (r : Entry) :
    localFor (mergeOne l r) r.record_id = some (serverWins r) := by
  unfold mergeOne
  by_cases hr : hasId l r.record_id = true
  · rw [if_pos hr, localFor_setFirst_self _ _ (serverWins_id r) _ hr]
  · rw [if_neg hr]
    simp [localFor, List.find?_cons]

/-! ### Facts about the push-outcome pass -/

theorem markPushedFun_id (ts : List Entry) (rj : List String) (x : Entry) :
    (markPushedFun ts rj x).record_id = x.record_id := by
  unfold markPushedFun
  split
  · rfl
  · split
    · rfl
    · rfl

theorem markPushedFun_of_rejected (ts : List Entry) (rj : List String) (x : Entry)
    (h : rj.contains x.record_id = true) : markPushedFun ts rj x = x := by
  unfold markPushedFun
  rw [if_pos h]

theorem markPushedFun_of_not_in_batch (ts : List Entry) (rj : List String) (x : Entry)
    (h : ts.any (fun e => e.record_id == x.record_id) = false) :
    markPushedFun ts rj x = x := by
  unfold markPushedFun
  by_cases h1 : rj.contains x.record_id = true
  · rw [if_pos h1]
  · rw [if_neg h1, if_neg (by rw [h]; exact Bool.false_ne_true)]

theorem mem_markPushed_of_not_in_batch (l ts : List Entry) (rj : List String) (e : Entry)
    (he : e ∈ l) (h : ts.any (fun x => x.record_id == e.record_id) = false) :
    e ∈ markPushed l ts rj := by
  have hfe : markPushedFun ts rj e = e := markPushedFun_of_not_in_batch ts rj e h
  rw [markPushed, ← hfe]
  exact List.mem_map_of_mem _ he

theorem hasId_markPushed (l ts : List Entry) (rj : List String) (j : String) :
    hasId (markPushed l ts rj) j = hasId l j := by
  induction l with
  | nil => rfl
  | cons x xs ih =>
    show hasId (markPushedFun ts rj x :: markPushed xs ts rj) j = hasId (x :: xs) j
    rw [hasId_cons, hasId_cons, markPushedFun_id, ih]

theorem localFor_markPushed_of_rejected (l ts : List Entry) (rj : List String)
    (i : String) (e : Entry) (hfind : localFor l i = some e)
    (hrej : rj.contains i = true) : localFor (markPushed l ts rj) i = some e := by
  induction l with
  | nil => simp [localFor] at hfind
  | cons x xs ih =>
    by_cases hb : (x.record_id == i) = true
    · have hx : x = e := Option.some.inj (by
        unfold localFor at hfind
        rwa [List.find?_cons_of_pos _ (by simp [hb])] at hfind)
      have hei : x.record_id = i := beq_iff_eq.mp hb
      have hfe : markPushedFun ts rj x = x :=
        markPushedFun_of_rejected ts rj x (by rw [hei]; exact hrej)
      show localFor (markPushedFun ts rj x :: markPushed xs ts rj) i = some e
      rw [hfe]
      unfold localFor
      rw [List.find?_cons_of_pos _ (by simp [hb]), hx]
    · have hb' : (x.record_id == i) = false := Bool.eq_false_iff.mpr hb
      have hfind' : localFor xs i = some e := by
        unfold localFor at hfind
        rwa [List.find?_cons_of_neg _ (by simp [hb'])] at hfind
      show localFor (markPushedFun ts rj x :: markPushed xs ts rj) i = some e
      unfold localFor
      rw [List.find?_cons_of_neg _ (by simp [markPushedFun_id, hb'])]
      exact ih hfind'

/-! ### Frame facts: untouched records survive the merge and the store upserts -/

theorem mem_setFirst_of_ne (v : Entry) (i : String) (e : Entry) (l : List Entry)
    (he : e ∈ l) (hne : ¬ e.record_id = i) : e ∈ setFirst v i l := by
  induction l with
  | nil => cases he
  | cons x xs ih =>
    rcases List.mem_cons.mp he with rfl | hx
    · have hb : (e.record_id == i) = false := beq_eq_false_iff_ne.mpr hne
      show e ∈ (if (e.record_id == i) then v :: xs else e :: setFirst v i xs)
      rw [if_neg (by rw [hb]; exact Bool.false_ne_true)]
      exact List.mem_cons_self e _
    · show e ∈ (if (x.record_id == i) then v :: xs else x :: setFirst v i xs)
      by_cases hx1 : (x.record_id == i) = true
      · rw [if_pos hx1]
        exact List.mem_cons_of_mem v hx
      · rw [if_neg hx1]
        exact List.mem_cons_of_mem x (ih hx)

theorem mem_mergeOne_of_ne (l : List Entry) (r e : Entry) (he : e ∈ l)
    (hne : ¬ e.record_id = r.record_id) : e ∈ mergeOne l r := by
  unfold mergeOne
  by_cases h : hasId l r.record_id = true
  · rw [if_pos h]
    exact mem_setFirst_of_ne _ _ _ _ he hne
  · rw [if_neg h]
    exact List.mem_cons_of_mem _ he

theorem mem_mergeEntries_of_ne (rs : List Entry) (l : List Entry) (e : Entry)
    (he : e ∈ l) (h : rs.any (fun x => x.record_id == e.record_id) = false) :
    e ∈ mergeEntries l rs := by
  induction rs generalizing l with
  | nil => exact he
  | cons r rs ih =>
    rw [List.any_cons] at h
    rcases Bool.or_eq_false_iff.mp h with ⟨h1, h2⟩
    show e ∈ mergeEntries (mergeOne l r) rs
    have hne : ¬ e.record_id = r.record_id := by
      intro hh
      exact (by simpa using h1 : ¬ r.record_id = e.record_id) hh.symm
    exact ih (mergeOne l r) (mem_mergeOne_of_ne l r e he hne) h2

theorem hasId_dbPut (l : List Entry) (e : Entry) (j : String) :
    hasId (dbPut l e) j = (e.record_id == j || hasId l j) := by
  unfold dbPut
  by_cases h : hasId l e.record_id = true
  · rw [if_pos h, hasId_setFirst e e.record_id rfl]
    by_cases hej : e.record_id = j
    · have hb : (e.record_id == j) = true := beq_iff_eq.mpr hej
      rw [hej] at h
      rw [hb, h]
      simp
    · have hb : (e.record_id == j) = false := beq_eq_false_iff_ne.mpr hej
      rw [hb]
      simp
  · rw [if_neg h]
    unfold hasId
    rw [List.any_append]
    simp [Bool.or_comm]

theorem hasId_saveEntries (es : List Entry) (l : List Entry) (j : String)
    (h : hasId l j = true) : hasId (saveEntries l es) j = true := by
  induction es generalizing l with
  | nil => exact h
  | cons e es ih =>
    show hasId (saveEntries (dbPut l e) es) j = true
    exact ih (dbPut l e) (by rw [hasId_dbPut, h]; simp)

theorem hasId_mergeEntries_of_base (rs : List Entry) (l : List Entry) (j : String)
    (h : hasId l j = true) : hasId (mergeEntries l rs) j = true := by
  rw [hasId_mergeEntries, h]
  simp

/-! ### Exhaustive case analysis of a run -/

/-- Every `handleSync` run lands in exactly one of eight cases: guard
short-circuit, empty-batch short-circuit, push transport failure, pull
transport failure, commit failure, watermark-persist failure, full success
without rejections, and full success with rejections — each with the exact
resulting state and call log. -/
theorem handleSync_cases (s : SyncState) (env : SyncEnv) :
    ((!s.isOnline || s.isSyncing || !(tokenTruthy s.token)) = true ∧
      handleSync s env = (s, ⟨false, false⟩)) ∨
    ((!s.isOnline || s.isSyncing || !(tokenTruthy s.token)) = false ∧
      (entriesToSyncOf s env).isEmpty = true ∧
      handleSync s env =
        ({ s with isSyncing := false, syncError := none }, ⟨false, false⟩)) ∨
    ((!s.isOnline || s.isSyncing || !(tokenTruthy s.token)) = false ∧
      (entriesToSyncOf s env).isEmpty = false ∧
      ∃ msg, env.pushResult = Except.error msg ∧
        handleSync s env =
          ({ s with isSyncing := false, syncError := some (SyncNote.apiError msg) },
           ⟨true, false⟩)) ∨
    ((!s.isOnline || s.isSyncing || !(tokenTruthy s.token)) = false ∧
      (entriesToSyncOf s env).isEmpty = false ∧
      ∃ pr msg, env.pushResult = Except.ok pr ∧ env.pullResult = Except.error msg ∧
        handleSync s env =
          ({ s with isSyncing := false, syncError := some (SyncNote.apiError msg) },
           ⟨true, true⟩)) ∨
    ((!s.isOnline || s.isSyncing || !(tokenTruthy s.token)) = false ∧
      (entriesToSyncOf s env).isEmpty = false ∧
      ∃ pr plr msg, env.pushResult = Except.ok pr ∧ env.pullResult = Except.ok plr ∧
        env.commitResult = Except.error msg ∧
        handleSync s env =
          ({ s with isSyncing := false, syncError := some (SyncNote.apiError msg) },
           ⟨true, true⟩)) ∨
    ((!s.isOnline || s.isSyncing || !(tokenTruthy s.token)) = false ∧
      (entriesToSyncOf s env).isEmpty = false ∧
      ∃ pr plr msg, env.pushResult = Except.ok pr ∧ env.pullResult = Except.ok plr ∧
        env.commitResult = Except.ok () ∧ env.appStateResult = Except.error msg ∧
        handleSync s env =
          ({ s with
              entries := mergedOf s env pr plr,
              dbEntries := saveEntries s.dbEntries (mergedOf s env pr plr),
              lastSyncTime := some env.now,
              isSyncing := false,
              syncError := some (SyncNote.apiError msg) },
           ⟨true, true⟩)) ∨
    ((!s.isOnline || s.isSyncing || !(tokenTruthy s.token)) = false ∧
      (entriesToSyncOf s env).isEmpty = false ∧
      ∃ pr plr, env.pushResult = Except.ok pr ∧ env.pullResult = Except.ok plr ∧
        env.commitResult = Except.ok () ∧ env.appStateResult = Except.ok () ∧
        (pr.rejected_ids.getD []).length = 0 ∧
        handleSync s env =
          ({ s with
              entries := mergedOf s env pr plr,
              dbEntries := saveEntries s.dbEntries (mergedOf s env pr plr),
              lastSyncTime := some env.now,
              dbLastSyncTime := some env.now,
              isSyncing := false,
              syncError := none },
           ⟨true, true⟩)) ∨
    ((!s.isOnline || s.isSyncing || !(tokenTruthy s.token)) = false ∧
      (entriesToSyncOf s env).isEmpty = false ∧
      ∃ pr plr, env.pushResult = Except.ok pr ∧ env.pullResult = Except.ok plr ∧
        env.commitResult = Except.ok () ∧ env.appStateResult = Except.ok () ∧
        0 < (pr.rejected_ids.getD []).length ∧
        handleSync s env =
          ({ s with
              entries := mergedOf s env pr plr,
              dbEntries := saveEntries s.dbEntries (mergedOf s env pr plr),
              lastSyncTime := some env.now,
              dbLastSyncTime := some env.now,
              isSyncing := false,
              syncError := some (SyncNote.rejectedConflicts (pr.rejected_ids.getD []).length) },
           ⟨true, true⟩)) := by
  by_cases h1 : (!s.isOnline || s.isSyncing || !(tokenTruthy s.token)) = true
  · exact Or.inl ⟨h1, by unfold handleSync; rw [if_pos h1]⟩
  have h1' : (!s.isOnline || s.isSyncing || !(tokenTruthy s.token)) = false :=
    Bool.eq_false_iff.mpr h1
  by_cases h2 : (entriesToSyncOf s env).isEmpty = true
  · refine Or.inr (Or.inl ⟨h1', h2, ?_⟩)
    unfold handleSync
    simp only []
    rw [if_neg h1, if_pos h2]
  have h2' : (entriesToSyncOf s env).isEmpty = false := Bool.eq_false_iff.mpr h2
  rcases hp : env.pushResult with msg | pr
  · refine Or.inr (Or.inr (Or.inl ⟨h1', h2', msg, rfl, ?_⟩))
    unfold handleSync
    simp only []
    rw [if_neg h1, if_neg h2, hp]
  rcases hpl : env.pullResult with msg | plr
  · refine Or.inr (Or.inr (Or.inr (Or.inl ⟨h1', h2', pr, msg, rfl, rfl, ?_⟩)))
    unfold handleSync
    simp only []
    rw [if_neg h1, if_neg h2, hp, hpl]
  rcases hc : env.commitResult with msg | u
  · refine Or.inr (Or.inr (Or.inr (Or.inr (Or.inl
      ⟨h1', h2', pr, plr, msg, rfl, rfl, rfl, ?_⟩))))
    unfold handleSync
    simp only []
    rw [if_neg h1, if_neg h2, hp, hpl, hc]
  rcases ha : env.appStateResult with msg | u2
  · refine Or.inr (Or.inr (Or.inr (Or.inr (Or.inr (Or.inl
      ⟨h1', h2', pr, plr, msg, rfl, rfl, rfl, rfl, ?_⟩)))))
    unfold handleSync
    simp only []
    rw [if_neg h1, if_neg h2, hp, hpl, hc, ha]
    rfl
  by_cases hrej : 0 < (pr.rejected_ids.getD []).length
  · refine Or.inr (Or.inr (Or.inr (Or.inr (Or.inr (Or.inr (Or.inr
      ⟨h1', h2', pr, plr, rfl, rfl, rfl, rfl, hrej, ?_⟩))))))
    unfold handleSync
    simp only []
    rw [if_neg h1, if_neg h2, hp, hpl, hc, ha]
    simp [mergedOf, hrej]
  · refine Or.inr (Or.inr (Or.inr (Or.inr (Or.inr (Or.inr (Or.inl
      ⟨h1', h2', pr, plr, rfl, rfl, rfl, rfl, Nat.eq_zero_of_not_pos hrej, ?_⟩))))))
    unfold handleSync
    simp only []
    rw [if_neg h1, if_neg h2, hp, hpl, hc, ha]
    simp [mergedOf, hrej]

theorem hasId_of_mem (l : List Entry) (x : Entry) (hx : x ∈ l) :
    hasId l x.record_id = true :=
  List.any_eq_true.mpr ⟨x, hx, beq_self_eq_true x.record_id⟩

/-- Unpacking the run guard `!isOnline || isSyncing || !token` being falsy. -/
theorem guard_decomp (s : SyncState)
    (h : (!s.isOnline || s.isSyncing || !(tokenTruthy s.token)) = false) :
    s.isOnline = true ∧ s.isSyncing = false ∧ tokenTruthy s.token = true := by
  rcases Bool.or_eq_false_iff.mp h with ⟨hab, hc⟩
  rcases Bool.or_eq_false_iff.mp hab with ⟨ha, hb⟩
  exact ⟨by simpa using ha, hb, by simpa using hc⟩

/-! ### The claims -/

/-- C1: whenever the push call is actually made and fails with a transport
failure (the call throws / gets no response), the run aborts before the pull
phase: the in-memory entries, the IndexedDB entry store and both copies of
the watermark are all unchanged (hence every record keeps its pending flag
and the pending set is unchanged), and the thrown error's message is
surfaced as the run outcome. -/
theorem C1_push_transport_failure_preserves_state (s : SyncState) (env : SyncEnv)
    (msg : String)
    (hcall : (handleSync s env).2.pushCalled = true)
    (hfail : env.pushResult = Except.error msg) :
    (handleSync s env).1.entries = s.entries ∧
    (handleSync s env).1.dbEntries = s.dbEntries ∧
    (handleSync s env).1.lastSyncTime = s.lastSyncTime ∧
    (handleSync s env).1.dbLastSyncTime = s.dbLastSyncTime ∧
    pendingEntries (handleSync s env).1.entries = pendingEntries s.entries ∧
    (handleSync s env).1.syncError = some (SyncNote.apiError msg) ∧
    (handleSync s env).2.pullCalled = false := by
  rcases handleSync_cases s env with
    ⟨hg, heq⟩ | ⟨hg, he, heq⟩ | ⟨hg, he, m, hpm, heq⟩ |
    ⟨hg, he, pr, m, hpm, hplm, heq⟩ |
    ⟨hg, he, pr, plr, m, hpm, hplm, hcm, heq⟩ |
    ⟨hg, he, pr, plr, m, hpm, hplm, hcm, ham, heq⟩ |
    ⟨hg, he, pr, plr, hpm, hplm, hcm, ham, hrj, heq⟩ |
    ⟨hg, he, pr, plr, hpm, hplm, hcm, ham, hrj, heq⟩
  · rw [heq] at hcall
    simp at hcall
  · rw [heq] at hcall
    simp at hcall
  · have hm : Except.error (α := SyncPushResponse) msg = Except.error m := by
      rw [← hfail, hpm]
    obtain rfl : msg = m := by
      injection hm
    rw [heq]
    exact ⟨rfl, rfl, rfl, rfl, rfl, rfl, rfl⟩
  · rw [hfail] at hpm
    simp at hpm
  · rw [hfail] at hpm
    simp at hpm
  · rw [hfail] at hpm
    simp at hpm
  · rw [hfail] at hpm
    simp at hpm
  · rw [hfail] at hpm
    simp at hpm

/-- C1 witness: concrete run whose push throws with message "boom". -/
theorem C1_witness :
    (handleSync baseState envPushFail).2.pushCalled = true ∧
    envPushFail.pushResult = Except.error "boom" ∧
    ((handleSync baseState envPushFail).1.entries = baseState.entries ∧
      (handleSync baseState envPushFail).1.dbEntries = baseState.dbEntries ∧
      (handleSync baseState envPushFail).1.lastSyncTime = baseState.lastSyncTime ∧
      (handleSync baseState envPushFail).1.dbLastSyncTime = baseState.dbLastSyncTime ∧
      pendingEntries (handleSync baseState envPushFail).1.entries
        = pendingEntries baseState.entries ∧
      (handleSync baseState envPushFail).1.syncError
        = some (SyncNote.apiError "boom") ∧
      (handleSync baseState envPushFail).2.pullCalled = false) :=
  ⟨by decide, rfl,
    C1_push_transport_failure_preserves_state baseState envPushFail "boom" (by decide) rfl⟩

/-- C2 counterexample: a fully successful run whose wall clock (5) is behind
the stored watermark (10) moves the watermark backward, refuting the claim
that the watermark is never moved backward and that it is clamped by any
pull-reported coverage. -/
theorem C2_counterexample_watermark_moves_backward :
    stampedState.lastSyncTime = some 10 ∧ stampedState.dbLastSyncTime = some 10 ∧
    (handleSync stampedState envAllOk).1.lastSyncTime = some 5 ∧
    (handleSync stampedState envAllOk).1.dbLastSyncTime = some 5 ∧
    (5 : Nat) < 10 := by decide

/-- C2 amended: the watermark is advanced only on the path where push and pull
returned and the Record Store commit succeeded, and its new value is exactly
the run's current wall-clock time (`new Date()` — no minimum with any
pull-reported coverage is taken, and no clamp against the previous value, so
a backward clock moves it backward). If the commit (or anything before it)
fails, both watermark copies are unchanged; if persisting the watermark
itself fails, the in-memory copy is advanced but the stored copy is
unchanged. -/
theorem C2_amended_watermark_advance (s : SyncState) (env : SyncEnv) :
    ((handleSync s env).1.lastSyncTime = s.lastSyncTime ∧
      (handleSync s env).1.dbLastSyncTime = s.dbLastSyncTime) ∨
    ((∃ pr, env.pushResult = Except.ok pr) ∧ (∃ plr, env.pullResult = Except.ok plr) ∧
      env.commitResult = Except.ok () ∧
      (handleSync s env).1.lastSyncTime = some env.now ∧
      ((env.appStateResult = Except.ok () ∧
          (handleSync s env).1.dbLastSyncTime = some env.now) ∨
        ((∃ m, env.appStateResult = Except.error m) ∧
          (handleSync s env).1.dbLastSyncTime = s.dbLastSyncTime))) := by
  rcases handleSync_cases s env with
    ⟨hg, heq⟩ | ⟨hg, he, heq⟩ | ⟨hg, he, m, hpm, heq⟩ |
    ⟨hg, he, pr, m, hpm, hplm, heq⟩ |
    ⟨hg, he, pr, plr, m, hpm, hplm, hcm, heq⟩ |
    ⟨hg, he, pr, plr, m, hpm, hplm, hcm, ham, heq⟩ |
    ⟨hg, he, pr, plr, hpm, hplm, hcm, ham, hrj, heq⟩ |
    ⟨hg, he, pr, plr, hpm, hplm, hcm, ham, hrj, heq⟩
  · exact Or.inl (by rw [heq]; exact ⟨rfl, rfl⟩)
  · exact Or.inl (by rw [heq]; exact ⟨rfl, rfl⟩)
  · exact Or.inl (by rw [heq]; exact ⟨rfl, rfl⟩)
  · exact Or.inl (by rw [heq]; exact ⟨rfl, rfl⟩)
  · exact Or.inl (by rw [heq]; exact ⟨rfl, rfl⟩)
  · exact Or.inr ⟨⟨pr, hpm⟩, ⟨plr, hplm⟩, hcm, by rw [heq],
      Or.inr ⟨⟨m, ham⟩, by rw [heq]⟩⟩
  · exact Or.inr ⟨⟨pr, hpm⟩, ⟨plr, hplm⟩, hcm, by rw [heq],
      Or.inl ⟨ham, by rw [heq]⟩⟩
  · exact Or.inr ⟨⟨pr, hpm⟩, ⟨plr, hplm⟩, hcm, by rw [heq],
      Or.inl ⟨ham, by rw [heq]⟩⟩

/-- C3: server-wins merge. For a pulled record `r` (with no later pulled
entry sharing its id), after the merge the local record at `r`'s id is
byte-equal to the pulled version with `pending := false` — whether or not a
local record with that id existed; in particular when no local counterpart
existed the record is inserted as a new local record with `pending=false`. -/
theorem C3_server_wins_merge (S R1 R2 : List Entry) (r : Entry)
    (h : R2.any (fun x => x.record_id == r.record_id) = false) :
    localFor (mergeEntries S (R1 ++ r :: R2)) r.record_id = some (serverWins r) ∧
    serverWins r ∈ mergeEntries S (R1 ++ r :: R2) := by
  have h1 : mergeEntries S (R1 ++ r :: R2) =
      mergeEntries (mergeOne (List.foldl mergeOne S R1) r) R2 := by
    unfold mergeEntries
    rw [List.foldl_append, List.foldl_cons]
  have hfind : localFor (mergeEntries S (R1 ++ r :: R2)) r.record_id
      = some (serverWins r) := by
    rw [h1, localFor_mergeEntries_ne R2 _ _ h, localFor_mergeOne_self]
  exact ⟨hfind, List.mem_of_find?_eq_some hfind⟩

/-- C3 witness: the pulled copy of `r1` overwrites the differing local copy
wholesale and ends up not pending. -/
theorem C3_witness :
    (([] : List Entry).any (fun x => x.record_id == pulledR1.record_id) = false) ∧
    (localFor (mergeEntries [sampleEntry] ([] ++ pulledR1 :: [])) pulledR1.record_id
        = some (serverWins pulledR1) ∧
      serverWins pulledR1 ∈ mergeEntries [sampleEntry] ([] ++ pulledR1 :: [])) :=
  ⟨by decide, C3_server_wins_merge [sampleEntry] [] [] pulledR1 (by decide)⟩

/-- C4 (the claim is what the spec prescribes; the code does the opposite):
with a push response reporting `rejected = 1` but omitting `rejected_ids`,
the code flips the batch record `r1` to `pending=false` — it does not keep
non-explicitly-accepted records pending. This theorem evaluates the code at
the failing input. -/
theorem C4_rejected_count_without_ids_marks_batch_synced :
    envRejNoIds.pushResult = Except.ok ⟨0, 1, none⟩ ∧
    sampleEntry.isPending = some true ∧
    (handleSync baseState envRejNoIds).1.entries
      = [{ sampleEntry with isPending := some false }] ∧
    pendingEntries (handleSync baseState envRejNoIds).1.entries = [] ∧
    (handleSync baseState envRejNoIds).1.syncError = none :=
  ⟨rfl, by decide⟩

/-- C5 counterexample: an online, idle, authenticated state with an empty
pending set and a manual full-batch trigger (`recordIdToSync = none`, exactly
what the Sync button invokes) returns without contacting the gateway —
refuting the claim that a forced/manual run with empty P still proceeds. -/
theorem C5_counterexample_manual_empty_run_skips_gateway :
    emptyState.isOnline = true ∧ emptyState.isSyncing = false ∧
    tokenTruthy emptyState.token = true ∧
    envAllOk.recordIdToSync = none ∧
    pendingEntries emptyState.entries = [] ∧
    (handleSync emptyState envAllOk).2.pushCalled = false ∧
    (handleSync emptyState envAllOk).2.pullCalled = false := by decide

/-- C5 amended: a run contacts the gateway (performs the push) exactly when
the client is online, no run is already in flight, the token is truthy, and
the selected batch (the pending set, optionally narrowed to one record id)
is non-empty — with no forced/scheduled distinction: an empty batch returns
early for every trigger. The pull is only ever reached via the push. -/
theorem C5_amended_gateway_contact_iff (s : SyncState) (env : SyncEnv) :
    ((handleSync s env).2.pushCalled = true ↔
      (s.isOnline = true ∧ s.isSyncing = false ∧ tokenTruthy s.token = true ∧
        entriesToSyncOf s env ≠ [])) ∧
    ((handleSync s env).2.pushCalled = false → (handleSync s env).2.pullCalled = false) := by
  rcases handleSync_cases s env with
    ⟨hg, heq⟩ | ⟨hg, he, heq⟩ | ⟨hg, he, m, hpm, heq⟩ |
    ⟨hg, he, pr, m, hpm, hplm, heq⟩ |
    ⟨hg, he, pr, plr, m, hpm, hplm, hcm, heq⟩ |
    ⟨hg, he, pr, plr, m, hpm, hplm, hcm, ham, heq⟩ |
    ⟨hg, he, pr, plr, hpm, hplm, hcm, ham, hrj, heq⟩ |
    ⟨hg, he, pr, plr, hpm, hplm, hcm, ham, hrj, heq⟩
  · rw [heq]
    refine ⟨⟨fun hh => absurd hh (by simp), fun ⟨ho, hs, ht, _⟩ => ?_⟩, fun _ => rfl⟩
    rw [ho, hs, ht] at hg
    simp at hg
  · rw [heq]
    refine ⟨⟨fun hh => absurd hh (by simp), fun ⟨_, _, _, hne⟩ => ?_⟩, fun _ => rfl⟩
    exact (hne (List.isEmpty_eq_true.mp he)).elim
  all_goals
    rw [heq]
    refine ⟨⟨fun _ => ?_, fun _ => rfl⟩, fun hh => absurd hh (by simp)⟩
    obtain ⟨ho, hs, ht⟩ := guard_decomp s hg
    exact ⟨ho, hs, ht, fun hnil => by rw [hnil] at he; simp at he⟩

/-- C6 counterexample (the spec's end-to-end scenario B): `r1` pending, push
explicitly rejects it, pull is empty — `r1` indeed stays pending unchanged
and the partial-success warning carries count 1, but the watermark is NOT
unchanged: the successful commit advances it from `none` to the run time 7,
refuting the claim's "watermark is unchanged" conjunct. -/
theorem C6_counterexample_watermark_advances_on_rejection :
    envRejIds.pushResult = Except.ok ⟨0, 1, some ["r1"]⟩ ∧
    sampleEntry.isPending = some true ∧
    localFor (handleSync baseState envRejIds).1.entries "r1" = some sampleEntry ∧
    (handleSync baseState envRejIds).1.syncError
      = some (SyncNote.rejectedConflicts 1) ∧
    baseState.lastSyncTime = none ∧
    (handleSync baseState envRejIds).1.lastSyncTime = some 7 :=
  ⟨rfl, by decide⟩

/-- C6 amended: when the push response explicitly lists rejected ids, each
rejected record (not re-delivered by the pull) keeps its exact pre-run value
(pending flag and all fields), the run still proceeds to the pull phase, and
the outcome is the non-fatal warning carrying the rejection count — but the
watermark is NOT unchanged: after the successful commit it is advanced to
the run's current time. -/
theorem C6_amended_rejected_kept_run_continues (s : SyncState) (env : SyncEnv)
    (pr : SyncPushResponse) (plr : SyncPullResponse) (rids : List String) (e : Entry)
    (hcall : (handleSync s env).2.pushCalled = true)
    (hpush : env.pushResult = Except.ok pr)
    (hrids : pr.rejected_ids = some rids)
    (hne : rids ≠ [])
    (hpull : env.pullResult = Except.ok plr)
    (hcommit : env.commitResult = Except.ok ())
    (happ : env.appStateResult = Except.ok ())
    (hfind : localFor s.entries e.record_id = some e)
    (hrej : rids.contains e.record_id = true)
    (hnp : (pulledOf plr).any (fun x => x.record_id == e.record_id) = false) :
    localFor (handleSync s env).1.entries e.record_id = some e ∧
    (handleSync s env).2.pullCalled = true ∧
    (handleSync s env).1.syncError = some (SyncNote.rejectedConflicts rids.length) ∧
    (handleSync s env).1.lastSyncTime = some env.now := by
  rcases handleSync_cases s env with
    ⟨hg, heq⟩ | ⟨hg, he, heq⟩ | ⟨hg, he, m, hpm, heq⟩ |
    ⟨hg, he, pr2, m, hpm, hplm, heq⟩ |
    ⟨hg, he, pr2, plr2, m, hpm, hplm, hcm, heq⟩ |
    ⟨hg, he, pr2, plr2, m, hpm, hplm, hcm, ham, heq⟩ |
    ⟨hg, he, pr2, plr2, hpm, hplm, hcm, ham, hrj, heq⟩ |
    ⟨hg, he, pr2, plr2, hpm, hplm, hcm, ham, hrj, heq⟩
  · rw [heq] at hcall
    simp at hcall
  · rw [heq] at hcall
    simp at hcall
  · rw [hpush] at hpm
    simp at hpm
  · rw [hpull] at hplm
    simp at hplm
  · rw [hcommit] at hcm
    simp at hcm
  · rw [happ] at ham
    simp at ham
  · -- success without rejections: contradicts the non-empty rejected list
    rw [hpush] at hpm
    obtain rfl : pr = pr2 := Except.ok.inj hpm
    rw [hrids] at hrj
    exact absurd (List.length_eq_zero.mp hrj) hne
  · rw [hpush] at hpm
    obtain rfl : pr = pr2 := Except.ok.inj hpm
    rw [hpull] at hplm
    obtain rfl : plr = plr2 := Except.ok.inj hplm
    rw [heq]
    refine ⟨?_, rfl, ?_, rfl⟩
    · unfold mergedOf
      rw [hrids, localFor_mergeEntries_ne _ _ _ hnp]
      exact localFor_markPushed_of_rejected _ _ _ _ _ hfind hrej
    · rw [hrids]
      rfl

/-- C6 witness: scenario B run through the amended theorem. -/
theorem C6_witness :
    (handleSync baseState envRejIds).2.pushCalled = true ∧
    envRejIds.pushResult = Except.ok ⟨0, 1, some ["r1"]⟩ ∧
    (["r1"] : List String) ≠ [] ∧
    localFor baseState.entries sampleEntry.record_id = some sampleEntry ∧
    (["r1"] : List String).contains sampleEntry.record_id = true ∧
    (pulledOf ⟨some [], 0⟩).any (fun x => x.record_id == sampleEntry.record_id) = false ∧
    (localFor (handleSync baseState envRejIds).1.entries sampleEntry.record_id
        = some sampleEntry ∧
      (handleSync baseState envRejIds).2.pullCalled = true ∧
      (handleSync baseState envRejIds).1.syncError
        = some (SyncNote.rejectedConflicts (["r1"] : List String).length) ∧
      (handleSync baseState envRejIds).1.lastSyncTime = some envRejIds.now) :=
  ⟨by decide, rfl, by decide, by decide, by decide, by decide,
    C6_amended_rejected_kept_run_continues baseState envRejIds ⟨0, 1, some ["r1"]⟩
      ⟨some [], 0⟩ ["r1"] sampleEntry (by decide) rfl rfl (by decide) rfl rfl rfl
      (by decide) (by decide) (by decide)⟩

/-- C7: the merge is idempotent — merging a pulled record set `R` into a
store state `S` and then merging `R` again into the result yields exactly
the store state of merging once. -/
theorem C7_merge_idempotent (S R : List Entry) :
    mergeEntries (mergeEntries S R) R = mergeEntries S R :=
  foldl_mergeOne_idem R S

/-- C9: frame property of a run, for EVERY run. Each local record whose id
is neither in the push batch nor in the pull response survives the run
byte-identical (it is still an element of the post-run entry list); and
unconditionally no record is ever removed: every pre-run record id is still
present after the run, both in the in-memory list and in the IndexedDB
store (the commit only upserts, never deletes). -/
theorem C9_run_frame (s : SyncState) (env : SyncEnv) :
    (∀ e, e ∈ s.entries →
      (entriesToSyncOf s env).any (fun x => x.record_id == e.record_id) = false →
      (pulledListOf env).any (fun x => x.record_id == e.record_id) = false →
      e ∈ (handleSync s env).1.entries) ∧
    (∀ x, x ∈ s.entries → hasId (handleSync s env).1.entries x.record_id = true) ∧
    (∀ x, x ∈ s.dbEntries → hasId (handleSync s env).1.dbEntries x.record_id = true) := by
  rcases handleSync_cases s env with
    ⟨hg, heq⟩ | ⟨hg, he2, heq⟩ | ⟨hg, he2, m, hpm, heq⟩ |
    ⟨hg, he2, pr, m, hpm, hplm, heq⟩ |
    ⟨hg, he2, pr, plr, m, hpm, hplm, hcm, heq⟩ |
    ⟨hg, he2, pr, plr, m, hpm, hplm, hcm, ham, heq⟩ |
    ⟨hg, he2, pr, plr, hpm, hplm, hcm, ham, hrj, heq⟩ |
    ⟨hg, he2, pr, plr, hpm, hplm, hcm, ham, hrj, heq⟩
  · rw [heq]
    exact ⟨fun e he _ _ => he,
      fun x hx => hasId_of_mem _ _ hx, fun x hx => hasId_of_mem _ _ hx⟩
  · rw [heq]
    exact ⟨fun e he _ _ => he,
      fun x hx => hasId_of_mem _ _ hx, fun x hx => hasId_of_mem _ _ hx⟩
  · rw [heq]
    exact ⟨fun e he _ _ => he,
      fun x hx => hasId_of_mem _ _ hx, fun x hx => hasId_of_mem _ _ hx⟩
  · rw [heq]
    exact ⟨fun e he _ _ => he,
      fun x hx => hasId_of_mem _ _ hx, fun x hx => hasId_of_mem _ _ hx⟩
  · rw [heq]
    exact ⟨fun e he _ _ => he,
      fun x hx => hasId_of_mem _ _ hx, fun x hx => hasId_of_mem _ _ hx⟩
  all_goals
    rw [heq]
    refine ⟨?_, ?_, ?_⟩
    · intro e he hb hpul
      have hpul2 : (pulledOf plr).any (fun x => x.record_id == e.record_id) = false := by
        unfold pulledListOf at hpul
        rw [hplm] at hpul
        exact hpul
      exact mem_mergeEntries_of_ne _ _ _
        (mem_markPushed_of_not_in_batch _ _ _ _ he hb) hpul2
    · intro x hx
      show hasId (mergedOf s env pr plr) x.record_id = true
      unfold mergedOf
      apply hasId_mergeEntries_of_base
      rw [hasId_markPushed]
      exact hasId_of_mem _ _ hx
    · intro x hx
      show hasId (saveEntries s.dbEntries (mergedOf s env pr plr)) x.record_id = true
      exact hasId_saveEntries _ _ _ (hasId_of_mem _ _ hx)

/-- C9 witness: over a two-record store, the already-synced record `r0`
(outside the batch, not pulled) survives a full run unchanged, and both
no-deletion conjuncts are instantiated at a concrete run. -/
theorem C9_witness :
    settledEntry ∈ twoEntryState.entries ∧
    (entriesToSyncOf twoEntryState envPullR2).any
      (fun x => x.record_id == settledEntry.record_id) = false ∧
    (pulledListOf envPullR2).any
      (fun x => x.record_id == settledEntry.record_id) = false ∧
    settledEntry ∈ (handleSync twoEntryState envPullR2).1.entries ∧
    (∀ x, x ∈ twoEntryState.entries →
      hasId (handleSync twoEntryState envPullR2).1.entries x.record_id = true) ∧
    (∀ x, x ∈ twoEntryState.dbEntries →
      hasId (handleSync twoEntryState envPullR2).1.dbEntries x.record_id = true) :=
  ⟨by decide, by decide, by decide,
    (C9_run_frame twoEntryState envPullR2).1 settledEntry (by decide) (by decide)
      (by decide),
    (C9_run_frame twoEntryState envPullR2).2.1,
    (C9_run_frame twoEntryState envPullR2).2.2⟩

/-- C10: all-or-nothing effects. If the push got a response but a later phase
throws — the pull call fails, or the Record Store commit fails — then no
local state changes at all: entries, IndexedDB store and both watermark
copies are untouched (so records the server accepted are NOT flipped to
`pending=false` and the pending set is unchanged, giving at-least-once
re-push on a later run), and the error is surfaced as the run outcome. -/
theorem C10_post_push_failure_atomic (s : SyncState) (env : SyncEnv)
    (pr : SyncPushResponse)
    (hcall : (handleSync s env).2.pushCalled = true)
    (hpush : env.pushResult = Except.ok pr)
    (hfail : (∃ m, env.pullResult = Except.error m) ∨
      (∃ m, env.commitResult = Except.error m)) :
    (handleSync s env).1.entries = s.entries ∧
    (handleSync s env).1.dbEntries = s.dbEntries ∧
    (handleSync s env).1.lastSyncTime = s.lastSyncTime ∧
    (handleSync s env).1.dbLastSyncTime = s.dbLastSyncTime ∧
    pendingEntries (handleSync s env).1.entries = pendingEntries s.entries ∧
    (∃ m, (handleSync s env).1.syncError = some (SyncNote.apiError m)) := by
  rcases handleSync_cases s env with
    ⟨hg, heq⟩ | ⟨hg, he, heq⟩ | ⟨hg, he, m, hpm, heq⟩ |
    ⟨hg, he, pr2, m, hpm, hplm, heq⟩ |
    ⟨hg, he, pr2, plr2, m, hpm, hplm, hcm, heq⟩ |
    ⟨hg, he, pr2, plr2, m, hpm, hplm, hcm, ham, heq⟩ |
    ⟨hg, he, pr2, plr2, hpm, hplm, hcm, ham, hrj, heq⟩ |
    ⟨hg, he, pr2, plr2, hpm, hplm, hcm, ham, hrj, heq⟩
  · rw [heq] at hcall
    simp at hcall
  · rw [heq] at hcall
    simp at hcall
  · rw [hpush] at hpm
    simp at hpm
  · rw [heq]
    exact ⟨rfl, rfl, rfl, rfl, rfl, ⟨m, rfl⟩⟩
  · rw [heq]
    exact ⟨rfl, rfl, rfl, rfl, rfl, ⟨m, rfl⟩⟩
  all_goals
    rcases hfail with ⟨m2, hm⟩ | ⟨m2, hm⟩
    · rw [hplm] at hm
      simp at hm
    · rw [hcm] at hm
      simp at hm

/-- C10 witness: push succeeds, then the pull call throws; nothing changes
and the error is surfaced. -/
theorem C10_witness :
    (handleSync baseState envPullFail).2.pushCalled = true ∧
    envPullFail.pushResult = Except.ok ⟨1, 0, none⟩ ∧
    envPullFail.pullResult = Except.error "pull down" ∧
    ((handleSync baseState envPullFail).1.entries = baseState.entries ∧
      (handleSync baseState envPullFail).1.dbEntries = baseState.dbEntries ∧
      (handleSync baseState envPullFail).1.lastSyncTime = baseState.lastSyncTime ∧
      (handleSync baseState envPullFail).1.dbLastSyncTime = baseState.dbLastSyncTime ∧
      pendingEntries (handleSync baseState envPullFail).1.entries
        = pendingEntries baseState.entries ∧
      (∃ m, (handleSync baseState envPullFail).1.syncError
        = some (SyncNote.apiError m))) :=
  ⟨by decide, rfl, rfl,
    C10_post_push_failure_atomic baseState envPullFail ⟨1, 0, none⟩ (by decide) rfl
      (Or.inl ⟨"pull down", rfl⟩)⟩

end Gatekeeper
